import Mathlib

/-!
Verification of the option-screening engine of this repository.

The repository ships the declarative filter configuration
(`iv_below_20day.ini`) while the engine that consumes it (FieldCatalog,
parser/validator, predicate evaluator, ranker, screening orchestration) is
not part of the sources at hand; every engine definition below is therefore
modelled from the specification document, faithful to its words, with the
configuration file supplying the catalogue of keys, the sort tokens, the
limit ceiling and the documented semantics of `active`.
-/

namespace Screen

/-! ## Text coercion helpers (Modelled from the spec: the config loader
supplies flat string values; §4.2 coerces them). -/

/-- A value of blank text means "unconstrained" (spec §4.2/§6). -/
def isBlank (s : String) : Bool :=
  s.toList.all (fun c => c == ' ' || c == '\t')

/-- Strip one pair of surrounding double quotes, as in `order-by = "iv_asc"`. -/
def stripQuotes (s : String) : String :=
  match s.toList with
  | [] => s
  | c :: rest =>
    if c == '"' && rest.getLast? == some '"' then String.mk rest.dropLast else s

/-- Whitespace characters trimmed from configuration values. -/
def isSpaceChar (c : Char) : Bool := c == ' ' || c == '\t'

/-- Trim leading and trailing whitespace from a character list. -/
def trimChars (cs : List Char) : List Char :=
  ((cs.dropWhile isSpaceChar).reverse.dropWhile isSpaceChar).reverse

/-- Normalise a raw configuration value: trim whitespace, strip quotes. -/
def normVal (s : String) : String :=
  stripQuotes (String.mk (trimChars s.toList))

/-- Decimal digit value of a character, if it is a digit. -/
def digitVal (c : Char) : Option Nat :=
  if c.isDigit then some (c.toNat - 48) else none

/-- Accumulate a decimal natural number from a digit list. -/
def parseNatCore : List Char → Nat → Option Nat
  | [], acc => some acc
  | c :: cs, acc =>
    match digitVal c with
    | some d => parseNatCore cs (acc * 10 + d)
    | none => none

/-- Parse a non-empty all-digit string as a natural number. -/
def parseNat (s : String) : Option Nat :=
  if s.toList.isEmpty then none else parseNatCore s.toList 0

/-- Parse an unsigned decimal numeral, with an optional fractional part. -/
def parseRatCore (cs : List Char) : Option ℚ :=
  let intPart := cs.takeWhile (fun c => c.isDigit)
  let rest := cs.dropWhile (fun c => c.isDigit)
  if intPart.isEmpty then none
  else
    match rest with
    | [] => (parseNatCore intPart 0).map (fun n => (n : ℚ))
    | '.' :: frac =>
      if frac.isEmpty || !(frac.all (fun c => c.isDigit)) then none
      else
        match parseNatCore intPart 0, parseNatCore frac 0 with
        | some i, some f =>
          some (mkRat (i * 10 ^ frac.length + f) (10 ^ frac.length))
        | _, _ => none
    | _ => none

/-- Parse a signed decimal numeral into a rational (the model of the
float/int coercion of spec §4.2). -/
def parseRat (s : String) : Option ℚ :=
  match s.toList with
  | '-' :: cs => (parseRatCore cs).map (fun q => -q)
  | cs => parseRatCore cs

/-- Parse boolean text: exactly `true` or `false` (spec §4.2). -/
def parseBool (s : String) : Option Bool :=
  if s == "true" then some true
  else if s == "false" then some false
  else none

/-- Split ticker text on comma or whitespace into uppercase symbols
(spec §4.2). -/
def splitTickers (s : String) : List String :=
  ((s.split (fun c => c == ',' || c == ' ')).filter (fun t => t ≠ "")).map
    String.toUpper

/-! ## Data model (Modelled from the spec: §3 CandidateRecord and the
moving-average windows; the engine source is not in the repository). -/

/-- Numeric fields of a moving-average snapshot for one lookback window. -/
structure MASnapshot where
  price : ℚ
  volume : ℚ
  iv : ℚ
  delta : ℚ
  gamma : ℚ
  theta : ℚ
  vega : ℚ
  rho : ℚ
deriving DecidableEq

/-- Modelled from the spec: §3 CandidateRecord — one option-contract
snapshot, with 20-day and 100-day moving-average snapshots and an identity
token `uid` used as the final tie-break (§4.4). -/
structure CandidateRecord where
  ticker : String
  isEtf : Bool
  isCall : Bool
  strike : ℚ
  expDays : ℚ
  lastPrice : ℚ
  bid : ℚ
  ask : ℚ
  volume : ℚ
  openInterest : ℚ
  delta : ℚ
  gamma : ℚ
  theta : ℚ
  vega : ℚ
  rho : ℚ
  iv : ℚ
  underlyingPrice : ℚ
  cap : ℚ
  ma20 : MASnapshot
  ma100 : MASnapshot
  uid : Nat
deriving DecidableEq

/-- Modelled from the spec: §4.1 FieldCatalog — the range-constrained keys
of the configuration file, one constructor per `min-*`/`max-*` pair. -/
inductive RangeKey
  | diff | askBid | exp | price | strike | sto | yld | myield
  | delta | gamma | theta | vega | iv | oi | volume | voi | cap
  | price20d | volume20d | iv20d | delta20d | gamma20d | theta20d
  | vega20d | rho20d
  | price100d | volume100d | iv100d | delta100d | gamma100d | theta100d
  | vega100d | rho100d
deriving DecidableEq

/-- The configuration-file name of a range key (without `min-`/`max-`). -/
def keyName : RangeKey → String
  | .diff => "diff"
  | .askBid => "ask-bid"
  | .exp => "exp"
  | .price => "price"
  | .strike => "strike"
  | .sto => "sto"
  | .yld => "yield"
  | .myield => "myield"
  | .delta => "delta"
  | .gamma => "gamma"
  | .theta => "theta"
  | .vega => "vega"
  | .iv => "iv"
  | .oi => "oi"
  | .volume => "volume"
  | .voi => "voi"
  | .cap => "cap"
  | .price20d => "price-20d"
  | .volume20d => "volume-20d"
  | .iv20d => "iv-20d"
  | .delta20d => "delta-20d"
  | .gamma20d => "gamma-20d"
  | .theta20d => "theta-20d"
  | .vega20d => "vega-20d"
  | .rho20d => "rho-20d"
  | .price100d => "price-100d"
  | .volume100d => "volume-100d"
  | .iv100d => "iv-100d"
  | .delta100d => "delta-100d"
  | .gamma100d => "gamma-100d"
  | .theta100d => "theta-100d"
  | .vega100d => "vega-100d"
  | .rho100d => "rho-100d"

/-- All range keys, in configuration-file order (the deterministic
diagnostic order of spec §4.1/§4.3). -/
def allRangeKeys : List RangeKey :=
  [.diff, .askBid, .exp, .price, .strike, .sto, .yld, .myield,
   .delta, .gamma, .theta, .vega, .iv, .oi, .volume, .voi, .cap,
   .price20d, .volume20d, .iv20d, .delta20d, .gamma20d, .theta20d,
   .vega20d, .rho20d,
   .price100d, .volume100d, .iv100d, .delta100d, .gamma100d, .theta100d,
   .vega100d, .rho100d]

/-- Modelled from the spec: §4.1 extractors — pure functions from a record
to the field value; derived ratios return `none` when the denominator is
zero (the "undefined" marker), and window fields are deviations of the
current value from the moving average. -/
def extract (k : RangeKey) (r : CandidateRecord) : Option ℚ :=
  match k with
  | .diff =>
    if r.underlyingPrice = 0 then none
    else some ((r.strike - r.underlyingPrice) / r.underlyingPrice * 100)
  | .askBid => some (r.ask - r.bid)
  | .exp => some r.expDays
  | .price => some r.lastPrice
  | .strike => some r.strike
  | .sto =>
    if r.underlyingPrice = 0 then none else some (r.lastPrice / r.underlyingPrice)
  | .yld => if r.strike = 0 then none else some (r.lastPrice / r.strike)
  | .myield =>
    if r.strike = 0 ∨ r.expDays = 0 then none
    else some (r.lastPrice / r.strike / (r.expDays / 30))
  | .delta => some r.delta
  | .gamma => some r.gamma
  | .theta => some r.theta
  | .vega => some r.vega
  | .iv => some r.iv
  | .oi => some r.openInterest
  | .volume => some r.volume
  | .voi =>
    if r.openInterest = 0 then none else some (r.volume / r.openInterest)
  | .cap => some r.cap
  | .price20d => some (r.lastPrice - r.ma20.price)
  | .volume20d => some (r.volume - r.ma20.volume)
  | .iv20d => some (r.iv - r.ma20.iv)
  | .delta20d => some (r.delta - r.ma20.delta)
  | .gamma20d => some (r.gamma - r.ma20.gamma)
  | .theta20d => some (r.theta - r.ma20.theta)
  | .vega20d => some (r.vega - r.ma20.vega)
  | .rho20d => some (r.rho - r.ma20.rho)
  | .price100d => some (r.lastPrice - r.ma100.price)
  | .volume100d => some (r.volume - r.ma100.volume)
  | .iv100d => some (r.iv - r.ma100.iv)
  | .delta100d => some (r.delta - r.ma100.delta)
  | .gamma100d => some (r.gamma - r.ma100.gamma)
  | .theta100d => some (r.theta - r.ma100.theta)
  | .vega100d => some (r.vega - r.ma100.vega)
  | .rho100d => some (r.rho - r.ma100.rho)

/-- A range constraint: either bound may be absent (unbounded on that
side), spec §3. -/
structure RangeBound where
  lo : Option ℚ
  hi : Option ℚ
deriving DecidableEq

/-- The sort tokens of the configuration file (`order-by`, spec §4.2). -/
inductive SortKey
  | e_desc | e_asc | iv_desc | iv_asc | lp_desc | lp_asc
  | md_desc | md_asc | oi_desc | oi_asc | v_desc | v_asc
  | rho_desc | rho_asc
deriving DecidableEq

/-- The configuration-file token of a sort key. -/
def sortToken : SortKey → String
  | .e_desc => "e_desc"
  | .e_asc => "e_asc"
  | .iv_desc => "iv_desc"
  | .iv_asc => "iv_asc"
  | .lp_desc => "lp_desc"
  | .lp_asc => "lp_asc"
  | .md_desc => "md_desc"
  | .md_asc => "md_asc"
  | .oi_desc => "oi_desc"
  | .oi_asc => "oi_asc"
  | .v_desc => "v_desc"
  | .v_asc => "v_asc"
  | .rho_desc => "ρ_desc"
  | .rho_asc => "ρ_asc"

/-- Modelled from the spec: §3 FilterSpec — the strongly typed immutable
specification: ticker set with exclude flag, tri-state booleans, one
optional range per range key, sort key and clamped limit. -/
structure FilterSpec where
  tickers : List String
  exclude : Bool
  itm : Option Bool
  otm : Option Bool
  calls : Option Bool
  puts : Option Bool
  stock : Option Bool
  etf : Option Bool
  active : Option Bool
  ranges : RangeKey → RangeBound
  orderBy : SortKey
  limit : Nat

/-! ## Predicate evaluator (Modelled from the spec: §4.3). -/

/-- A diagnostic entry: an ordinary constraint failure, or the distinct
marker for a predicate reading an undefined derived field (spec §4.3). -/
inductive Diag
  | failed (k : String)
  | undefined (k : String)
deriving DecidableEq

/-- A range bound is active when at least one side is present. -/
def rangeConstrained (b : RangeBound) : Bool := b.lo.isSome || b.hi.isSome

/-- A value satisfies a range bound when it lies within each present bound
inclusively (spec §4.3 Range). -/
def checkRange (b : RangeBound) (v : ℚ) : Bool :=
  (match b.lo with
   | none => true
   | some lo => decide (lo ≤ v)) &&
  (match b.hi with
   | none => true
   | some hi => decide (v ≤ hi))

/-- Diagnostics of one range key on one record: nothing when the key is
unconstrained; the distinct undefined marker when the extractor is
undefined; a failure when the value falls outside the bound. -/
def rangeDiag (spec : FilterSpec) (r : CandidateRecord) (k : RangeKey) :
    List Diag :=
  let b := spec.ranges k
  if rangeConstrained b then
    match extract k r with
    | none => [Diag.undefined (keyName k)]
    | some v => if checkRange b v then [] else [Diag.failed (keyName k)]
  else []

/-- Tri-state boolean check: unset always passes; `some want` requires the
extracted boolean to equal `want` (spec §4.3). -/
def triStateDiag (name : String) (c : Option Bool) (v : Bool) : List Diag :=
  match c with
  | none => []
  | some want => if v == want then [] else [Diag.failed name]

/-- In-the-money: a call whose strike is below the stock price, or a put
whose strike is above it. -/
def isITM (r : CandidateRecord) : Bool :=
  if r.isCall then decide (r.strike < r.underlyingPrice)
  else decide (r.underlyingPrice < r.strike)

/-- Out-of-the-money: the strict opposite side of the stock price. -/
def isOTM (r : CandidateRecord) : Bool :=
  if r.isCall then decide (r.underlyingPrice < r.strike)
  else decide (r.strike < r.underlyingPrice)

/-- Ticker set-membership check: an empty set is no restriction; otherwise
membership must equal `not exclude` (spec §4.3). -/
def tickerDiag (spec : FilterSpec) (r : CandidateRecord) : List Diag :=
  if spec.tickers.isEmpty then []
  else if spec.tickers.contains r.ticker == !spec.exclude then []
  else [Diag.failed "tickers"]

/-- Modelled from the spec: the `active` key of the configuration file —
"if set to true, restricts to options for which volume, open interest,
ask, and bid are all > 0"; any other setting restricts nothing. -/
def activeDiag (spec : FilterSpec) (r : CandidateRecord) : List Diag :=
  if spec.active = some true then
    if decide (0 < r.volume) && decide (0 < r.openInterest) &&
       decide (0 < r.ask) && decide (0 < r.bid) then []
    else [Diag.failed "active"]
  else []

/-- All diagnostics of one record against one specification, in catalogue
order: identity, tri-state booleans, `active`, then every range key. -/
def diagsOf (spec : FilterSpec) (r : CandidateRecord) : List Diag :=
  tickerDiag spec r ++
  triStateDiag "itm" spec.itm (isITM r) ++
  triStateDiag "otm" spec.otm (isOTM r) ++
  triStateDiag "calls" spec.calls r.isCall ++
  triStateDiag "puts" spec.puts (!r.isCall) ++
  triStateDiag "stock" spec.stock (!r.isEtf) ++
  triStateDiag "etf" spec.etf r.isEtf ++
  activeDiag spec r ++
  allRangeKeys.foldr (fun k acc => rangeDiag spec r k ++ acc) []

/-- Modelled from the spec: §4.3 `evaluate` — overall pass is the
conjunction of every constrained-field check, with the failed keys
retained for diagnostics. -/
def evaluate (spec : FilterSpec) (r : CandidateRecord) : Bool × List Diag :=
  let ds := diagsOf spec r
  (ds.isEmpty, ds)

/-- The records of a candidate list that pass the specification. -/
def passingSet (spec : FilterSpec) (cands : List CandidateRecord) :
    List CandidateRecord :=
  cands.filter (fun r => (evaluate spec r).1)

/-! ## Ranker (Modelled from the spec: §4.4). -/

/-- The primary sort value of a record under a sort key; descending
variants negate the field so that the usual `≤` ordering applies. -/
def sortVal (sk : SortKey) (r : CandidateRecord) : ℚ :=
  match sk with
  | .e_desc => -r.expDays
  | .e_asc => r.expDays
  | .iv_desc => -r.iv
  | .iv_asc => r.iv
  | .lp_desc => -r.lastPrice
  | .lp_asc => r.lastPrice
  | .md_desc => -r.underlyingPrice
  | .md_asc => r.underlyingPrice
  | .oi_desc => -r.openInterest
  | .oi_asc => r.openInterest
  | .v_desc => -r.volume
  | .v_asc => r.volume
  | .rho_desc => -r.rho
  | .rho_asc => r.rho

/-- A ticker as its list of character codes; lexicographic order on these
lists is the ascending ticker order. -/
def tickerCode (r : CandidateRecord) : List ℕ :=
  r.ticker.toList.map Char.toNat

/-- The full ranking key: primary sort value, then ticker ascending, then
the record identity token — a lexicographic total order (spec §4.4). -/
def rankKey (sk : SortKey) (r : CandidateRecord) :
    Lex (ℚ × Lex (List ℕ × Nat)) :=
  toLex (sortVal sk r, toLex (tickerCode r, r.uid))

/-- The ranking order relation on records for one sort key. -/
def recLE (sk : SortKey) (a b : CandidateRecord) : Prop :=
  rankKey sk a ≤ rankKey sk b

instance (sk : SortKey) : DecidableRel (recLE sk) := fun a b =>
  inferInstanceAs (Decidable (rankKey sk a ≤ rankKey sk b))

instance (sk : SortKey) : IsTotal CandidateRecord (recLE sk) :=
  ⟨fun a b => le_total (rankKey sk a) (rankKey sk b)⟩

instance (sk : SortKey) : IsTrans CandidateRecord (recLE sk) :=
  ⟨fun _ _ _ hab hbc => le_trans hab hbc⟩

/-- Modelled from the spec: §4.4 `rank` — order by the resolved field and
direction with the deterministic tie-break, then truncate to the clamped
limit. -/
def rank (spec : FilterSpec) (passing : List CandidateRecord) :
    List CandidateRecord :=
  (List.insertionSort (recLE spec.orderBy) passing).take spec.limit

/-! ## Parser / validator (Modelled from the spec: §4.2). -/

/-- Validation errors: unknown key, malformed value for a key, or a range
whose present bounds satisfy min > max (named by the base key, covering
both `min-*` and `max-*`). -/
inductive ValidationError
  | unknownKey (k : String)
  | malformedValue (k v : String)
  | minGtMax (base : String)
deriving DecidableEq

/-- The tri-state boolean keys of the configuration file, in file order. -/
def boolNames : List String :=
  ["itm", "otm", "calls", "puts", "stock", "etf", "active"]

/-- Every key the catalogue recognises (spec §4.1 `allKeys`). -/
def allKeys : List String :=
  ["tickers", "exclude"] ++ boolNames ++
  (allRangeKeys.map (fun k => "min-" ++ keyName k)) ++
  (allRangeKeys.map (fun k => "max-" ++ keyName k)) ++
  ["order-by", "limit"]

/-- A raw configuration: the flat key → text mapping of spec §6. -/
def RawConfig := List (String × String)

/-- Look a key up in the raw configuration; blank text counts as absent,
and present text is normalised. -/
def lookupRaw (raw : RawConfig) (k : String) : Option String :=
  match List.lookup k raw with
  | some v => if isBlank v then none else some (normVal v)
  | none => none

/-- Errors of one tri-state boolean key: present text must parse as a
boolean. -/
def boolFieldErrs (raw : RawConfig) (name : String) : List ValidationError :=
  match lookupRaw raw name with
  | none => []
  | some v =>
    match parseBool v with
    | some _ => []
    | none => [ValidationError.malformedValue name v]

/-- Errors of one range key: each present bound must parse as a numeral,
and when both parse, min ≤ max must hold (spec §4.2). -/
def rangeFieldErrs (raw : RawConfig) (k : RangeKey) : List ValidationError :=
  let n := keyName k
  let minV := lookupRaw raw ("min-" ++ n)
  let maxV := lookupRaw raw ("max-" ++ n)
  (match minV with
   | none => []
   | some v =>
     if (parseRat v).isSome then []
     else [ValidationError.malformedValue ("min-" ++ n) v]) ++
  (match maxV with
   | none => []
   | some v =>
     if (parseRat v).isSome then []
     else [ValidationError.malformedValue ("max-" ++ n) v]) ++
  (match minV, maxV with
   | some v1, some v2 =>
     match parseRat v1, parseRat v2 with
     | some q1, some q2 =>
       if q2 < q1 then [ValidationError.minGtMax n] else []
     | _, _ => []
   | _, _ => [])

/-- Errors for raw keys the catalogue does not recognise (spec §4.2). -/
def unknownKeyErrs (raw : RawConfig) : List ValidationError :=
  (raw.filter (fun p => !isBlank p.2 && !allKeys.contains p.1)).map
    (fun p => ValidationError.unknownKey p.1)

/-- Errors of the `exclude` key (a plain boolean). -/
def excludeErrs (raw : RawConfig) : List ValidationError :=
  boolFieldErrs raw "exclude"

/-- Errors of the `limit` key: present text must be a positive integer;
being above the ceiling is not an error (spec §4.2). -/
def limitErrs (raw : RawConfig) : List ValidationError :=
  match lookupRaw raw "limit" with
  | none => []
  | some v =>
    match parseNat v with
    | some n => if n = 0 then [ValidationError.malformedValue "limit" v] else []
    | none => [ValidationError.malformedValue "limit" v]

/-- Every validation error of a raw configuration, collected eagerly
across all keys (spec §4.2: not fail-fast). -/
def parseErrs (raw : RawConfig) : List ValidationError :=
  unknownKeyErrs raw ++
  excludeErrs raw ++
  boolNames.foldr (fun n acc => boolFieldErrs raw n ++ acc) [] ++
  allRangeKeys.foldr (fun k acc => rangeFieldErrs raw k ++ acc) [] ++
  limitErrs raw

/-- The parsed bound of one range key (kept unconstrained on a side whose
text is absent). -/
def parseRangeBound (raw : RawConfig) (k : RangeKey) : RangeBound :=
  ⟨(lookupRaw raw ("min-" ++ keyName k)).bind parseRat,
   (lookupRaw raw ("max-" ++ keyName k)).bind parseRat⟩

/-- Match an `order-by` token; unmatched text resolves to the default
`e_desc` (spec §4.2). -/
def parseOrderByStr (s : String) : SortKey :=
  if s = "e_desc" then .e_desc
  else if s = "e_asc" then .e_asc
  else if s = "iv_desc" then .iv_desc
  else if s = "iv_asc" then .iv_asc
  else if s = "lp_desc" then .lp_desc
  else if s = "lp_asc" then .lp_asc
  else if s = "md_desc" then .md_desc
  else if s = "md_asc" then .md_asc
  else if s = "oi_desc" then .oi_desc
  else if s = "oi_asc" then .oi_asc
  else if s = "v_desc" then .v_desc
  else if s = "v_asc" then .v_asc
  else if s = "ρ_desc" then .rho_desc
  else if s = "ρ_asc" then .rho_asc
  else .e_desc

/-- Resolve the optional `order-by` value: blank or absent resolves to the
default expiration-descending. -/
def parseOrderBy (v : Option String) : SortKey :=
  match v with
  | none => .e_desc
  | some s => parseOrderByStr s

/-- The hard ceiling on the result limit (configuration file: max 50). -/
def limitCeiling : Nat := 50

/-- Resolve the optional `limit` value: clamp to the ceiling, default to
the ceiling when absent (spec §4.2: clamped, not rejected). -/
def parseLimit (v : Option String) : Nat :=
  match v with
  | none => limitCeiling
  | some s =>
    match parseNat s with
    | some n => if n = 0 then limitCeiling else min n limitCeiling
    | none => limitCeiling

/-- Build the typed specification from a raw configuration (meaningful
once validation produced no errors). -/
def buildSpec (raw : RawConfig) : FilterSpec where
  tickers :=
    match lookupRaw raw "tickers" with
    | none => []
    | some s => splitTickers s
  exclude := ((lookupRaw raw "exclude").bind parseBool).getD false
  itm := (lookupRaw raw "itm").bind parseBool
  otm := (lookupRaw raw "otm").bind parseBool
  calls := (lookupRaw raw "calls").bind parseBool
  puts := (lookupRaw raw "puts").bind parseBool
  stock := (lookupRaw raw "stock").bind parseBool
  etf := (lookupRaw raw "etf").bind parseBool
  active := (lookupRaw raw "active").bind parseBool
  ranges := fun k => parseRangeBound raw k
  orderBy := parseOrderBy (lookupRaw raw "order-by")
  limit := parseLimit (lookupRaw raw "limit")

/-- Modelled from the spec: §4.2 `parse` — fully eager validation; all
errors are returned together, otherwise the typed specification. -/
def parse (raw : RawConfig) : Except (List ValidationError) FilterSpec :=
  if (parseErrs raw).isEmpty then Except.ok (buildSpec raw)
  else Except.error (parseErrs raw)

/-! ## Screening engine (Modelled from the spec: §4.5). -/

/-- The engine output: the bounded ranked passing records plus the full
per-record diagnostics (spec §3 ScreeningResult). -/
structure ScreeningResult where
  ranked : List CandidateRecord
  diags : List (CandidateRecord × Bool × List Diag)
deriving DecidableEq

/-- Modelled from the spec: §4.5 `run` — parse, then evaluate every
candidate, rank the passing set and truncate; validation failure returns
the error set without touching candidates. -/
def run (raw : RawConfig) (cands : List CandidateRecord) :
    Except (List ValidationError) ScreeningResult :=
  match parse raw with
  | Except.error es => Except.error es
  | Except.ok spec =>
    Except.ok
      { ranked := rank spec (passingSet spec cands)
        diags := cands.map (fun r => (r, evaluate spec r)) }

/-! ## Concrete fixtures used to instantiate the general theorems. -/

/-- A zero moving-average snapshot. -/
def ma0 : MASnapshot := ⟨0, 0, 0, 0, 0, 0, 0, 0⟩

/-- A liquid GME call used as a generic sample record. -/
def rec0 : CandidateRecord :=
  { ticker := "GME", isEtf := false, isCall := true, strike := 10,
    expDays := 30, lastPrice := 1, bid := 1, ask := 2, volume := 5,
    openInterest := 3, delta := 0, gamma := 0, theta := 0, vega := 0,
    rho := 0, iv := 1, underlyingPrice := 9, cap := 1, ma20 := ma0,
    ma100 := ma0, uid := 0 }

/-- The fully unconstrained specification. -/
def trivSpec : FilterSpec :=
  { tickers := [], exclude := false, itm := none, otm := none, calls := none,
    puts := none, stock := none, etf := none, active := none,
    ranges := fun _ => ⟨none, none⟩, orderBy := .e_desc, limit := 50 }

/-- A specification with a closed implied-volatility range `[1, 2]`. -/
def c2spec : FilterSpec :=
  { trivSpec with
    ranges := fun k => if k = RangeKey.iv then ⟨some 1, some 2⟩ else ⟨none, none⟩ }

/-- A configuration whose `min-iv` exceeds its `max-iv`, next to an
unrelated unknown-key error. -/
def c3raw : RawConfig := [("min-iv", "2"), ("max-iv", "1"), ("bogus", "x")]

/-- A configuration asking for 1000 results. -/
def c4raw : RawConfig := [("limit", "1000")]

/-- A specification constraining the volume / open-interest ratio. -/
def c5spec : FilterSpec :=
  { trivSpec with
    ranges := fun k => if k = RangeKey.voi then ⟨some 1, none⟩ else ⟨none, none⟩ }

/-- A record with zero open interest. -/
def c5rec : CandidateRecord := { rec0 with openInterest := 0 }

/-- The exclude-GME specification of the exclusion scenario. -/
def c6spec : FilterSpec := { trivSpec with tickers := ["GME"], exclude := true }

/-- The AMC record of the exclusion scenario. -/
def c6amc : CandidateRecord := { rec0 with ticker := "AMC", uid := 1 }

/-- The sort-by-implied-volatility-descending specification. -/
def c8spec : FilterSpec := { trivSpec with orderBy := .iv_desc }

/-- Scenario record with implied volatility 0.1. -/
def c8a : CandidateRecord :=
  { rec0 with ticker := "AAA", iv := mkRat 1 10, uid := 1 }

/-- Scenario record with implied volatility 0.5. -/
def c8b : CandidateRecord :=
  { rec0 with ticker := "BBB", iv := mkRat 5 10, uid := 2 }

/-- Scenario record with implied volatility 0.3. -/
def c8c : CandidateRecord :=
  { rec0 with ticker := "CCC", iv := mkRat 3 10, uid := 3 }

/-- A specification requiring active contracts. -/
def c10spec : FilterSpec := { trivSpec with active := some true }

/-- A specification with every constraint unset: empty ticker set, every
tri-state unset, every range unbounded (spec §4.3 "zero active
constraints"). -/
def unconstrained (spec : FilterSpec) : Prop :=
  spec.tickers = [] ∧ spec.itm = none ∧ spec.otm = none ∧
  spec.calls = none ∧ spec.puts = none ∧ spec.stock = none ∧
  spec.etf = none ∧ spec.active = none ∧
  ∀ k, spec.ranges k = ⟨none, none⟩

/-! ## Helper lemmas. -/

theorem mem_foldr_append {α β : Type} (f : α → List β) (l : List α) (x : β)
    (k : α) (hk : k ∈ l) (hx : x ∈ f k) :
    x ∈ l.foldr (fun a acc => f a ++ acc) [] := by
  induction l with
  | nil => cases hk
  | cons a as ih =>
    rcases List.mem_cons.mp hk with h | h
    · subst h
      exact List.mem_append.mpr (Or.inl hx)
    · exact List.mem_append.mpr (Or.inr (ih h))

theorem foldr_append_eq_nil {α β : Type} (f : α → List β) (l : List α)
    (h : ∀ a ∈ l, f a = []) :
    l.foldr (fun a acc => f a ++ acc) [] = [] := by
  induction l with
  | nil => rfl
  | cons a as ih =>
    simp only [List.foldr_cons]
    rw [h a (List.mem_cons_self a as), ih (fun b hb => h b (List.mem_cons_of_mem a hb))]
    rfl

theorem allRangeKeys_complete (k : RangeKey) : k ∈ allRangeKeys := by
  cases k <;> decide

theorem checkRange_eq_true_iff (b : RangeBound) (v : ℚ) :
    checkRange b v = true ↔
      ((∀ lo, b.lo = some lo → lo ≤ v) ∧ (∀ hi, b.hi = some hi → v ≤ hi)) := by
  rcases b with ⟨lo, hi⟩
  rcases lo with _ | lo <;> rcases hi with _ | hi <;>
    simp [checkRange]

theorem rangeConstrained_false_bounds (b : RangeBound)
    (h : rangeConstrained b = false) : b.lo = none ∧ b.hi = none := by
  rcases b with ⟨lo, hi⟩
  rcases lo with _ | lo <;> rcases hi with _ | hi <;> simp_all [rangeConstrained]

/-! ## Claims. -/

/-- C1: the screening engine's `run` is deterministic — two invocations on
identical `(rawConfig, candidates)` inputs yield identical output,
including the tie-break order. -/
theorem run_idempotent (raw : RawConfig) (cands : List CandidateRecord) :
    run raw cands = run raw cands := rfl

/-- C2: under a range constraint, a record passes iff the extracted value
lies in the closed interval `[min, max]`; boundary values pass and an
absent bound leaves that side unbounded. -/
theorem range_bounds_inclusive (spec : FilterSpec) (r : CandidateRecord)
    (k : RangeKey) (v : ℚ) (h : extract k r = some v) :
    rangeDiag spec r k = [] ↔
      ((∀ lo, (spec.ranges k).lo = some lo → lo ≤ v) ∧
       (∀ hi, (spec.ranges k).hi = some hi → v ≤ hi)) := by
  unfold rangeDiag
  cases hc : rangeConstrained (spec.ranges k) with
  | false =>
    obtain ⟨hlo, hhi⟩ := rangeConstrained_false_bounds _ hc
    simp [hc, hlo, hhi]
  | true =>
    rw [← checkRange_eq_true_iff _ v]
    simp only [h, if_true]
    split <;> simp_all

/-- Witness for C2: with bounds `[1, 2]` on implied volatility, the sample
record at the exact lower boundary `1` passes. -/
theorem range_bounds_inclusive_witness :
    extract RangeKey.iv rec0 = some 1 ∧
      (rangeDiag c2spec rec0 RangeKey.iv = [] ↔
        ((∀ lo, (c2spec.ranges RangeKey.iv).lo = some lo → lo ≤ 1) ∧
         (∀ hi, (c2spec.ranges RangeKey.iv).hi = some hi → (1 : ℚ) ≤ hi))) :=
  ⟨rfl, range_bounds_inclusive c2spec rec0 RangeKey.iv 1 rfl⟩

/-- C3: whenever the configuration carries both bounds of a range field
with min > max, `parse` fails with a validation error naming that field,
present in the returned error set regardless of how many other errors
coexist (validation is eager, never fail-fast). -/
theorem min_gt_max_reported (raw : RawConfig) (k : RangeKey)
    (s1 s2 : String) (q1 q2 : ℚ)
    (h1 : lookupRaw raw ("min-" ++ keyName k) = some s1)
    (h2 : parseRat s1 = some q1)
    (h3 : lookupRaw raw ("max-" ++ keyName k) = some s2)
    (h4 : parseRat s2 = some q2)
    (h5 : q2 < q1) :
    ∃ es, parse raw = Except.error es ∧
      ValidationError.minGtMax (keyName k) ∈ es := by
  have hmem : ValidationError.minGtMax (keyName k) ∈ rangeFieldErrs raw k := by
    simp [rangeFieldErrs, h1, h2, h3, h4, h5]
  have hfold :
      ValidationError.minGtMax (keyName k) ∈
        allRangeKeys.foldr (fun a acc => rangeFieldErrs raw a ++ acc) [] :=
    mem_foldr_append _ _ _ k (allRangeKeys_complete k) hmem
  have hall : ValidationError.minGtMax (keyName k) ∈ parseErrs raw := by
    unfold parseErrs
    exact List.mem_append.mpr (Or.inl (List.mem_append.mpr (Or.inr hfold)))
  have hne : (parseErrs raw).isEmpty = false := by
    rcases he : parseErrs raw with _ | ⟨e, es⟩
    · rw [he] at hall; cases hall
    · rfl
  refine ⟨parseErrs raw, ?_, hall⟩
  unfold parse
  simp [hne]

/-- Witness for C3: `min-iv = 2`, `max-iv = 1` next to an unknown key is
reported as a `minGtMax` error on `iv`. -/
theorem min_gt_max_reported_witness :
    ∃ es, parse c3raw = Except.error es ∧
      ValidationError.minGtMax (keyName RangeKey.iv) ∈ es :=
  min_gt_max_reported c3raw RangeKey.iv "2" "1" 2 1
    (by decide) (by decide) (by decide) (by decide) (by decide)

/-- C4: a limit above the ceiling 50 is clamped to 50 instead of being
rejected: no limit validation error arises, a successful parse carries
limit 50, and the ranked output of `run` never exceeds 50 records. -/
theorem limit_clamp_bounds (raw : RawConfig) (s : String) (n : Nat)
    (h1 : lookupRaw raw "limit" = some s)
    (h2 : parseNat s = some n)
    (h3 : 50 < n) :
    limitErrs raw = [] ∧
    parseLimit (lookupRaw raw "limit") = 50 ∧
    (∀ spec, parse raw = Except.ok spec → spec.limit = 50) ∧
    (∀ cands res, run raw cands = Except.ok res →
      res.ranked.length ≤ 50) := by
  have hn0 : n ≠ 0 := by omega
  have herr : limitErrs raw = [] := by
    simp [limitErrs, h1, h2, hn0]
  have hlim : parseLimit (lookupRaw raw "limit") = 50 := by
    simp only [parseLimit, h1, h2, limitCeiling]
    rw [if_neg hn0]
    exact Nat.min_eq_right (Nat.le_of_lt h3)
  refine ⟨herr, hlim, ?_, ?_⟩
  · intro spec hp
    unfold parse at hp
    split at hp
    · cases hp
      exact hlim
    · cases hp
  · intro cands res hr
    unfold run at hr
    split at hr
    · cases hr
    · rename_i spec hp
      cases hr
      have hs : spec.limit = 50 := by
        unfold parse at hp
        split at hp
        · cases hp; exact hlim
        · cases hp
      simp only [rank, List.length_take, hs]
      exact Nat.min_le_left _ _

/-- Witness for C4: a configured limit of 1000 clamps to 50, produces no
validation error, and bounds the output of `run`. -/
theorem limit_clamp_bounds_witness :
    limitErrs c4raw = [] ∧
    parseLimit (lookupRaw c4raw "limit") = 50 ∧
    (∀ spec, parse c4raw = Except.ok spec → spec.limit = 50) ∧
    (∀ cands res, run c4raw cands = Except.ok res →
      res.ranked.length ≤ 50) :=
  limit_clamp_bounds c4raw "1000" 1000 (by decide) (by decide) (by decide)

/-- C5: a record with zero open interest deterministically fails any
constraint on the volume / open-interest ratio, recorded with the
distinct undefined-field marker rather than raising a fault (evaluation
is a total function). -/
theorem voi_zero_oi_fails (spec : FilterSpec) (r : CandidateRecord)
    (h1 : r.openInterest = 0)
    (h2 : rangeConstrained (spec.ranges RangeKey.voi) = true) :
    Diag.undefined "voi" ∈ (evaluate spec r).2 ∧ (evaluate spec r).1 = false := by
  have hx : extract RangeKey.voi r = none := by
    simp [extract, h1]
  have hd : rangeDiag spec r RangeKey.voi = [Diag.undefined "voi"] := by
    simp [rangeDiag, h2, hx, keyName]
  have hfold :
      Diag.undefined "voi" ∈
        allRangeKeys.foldr (fun a acc => rangeDiag spec r a ++ acc) [] :=
    mem_foldr_append _ _ _ RangeKey.voi (allRangeKeys_complete _)
      (by rw [hd]; exact List.mem_singleton.mpr rfl)
  have hmem : Diag.undefined "voi" ∈ diagsOf spec r := by
    unfold diagsOf
    exact List.mem_append.mpr (Or.inr hfold)
  refine ⟨hmem, ?_⟩
  have hne : diagsOf spec r ≠ [] := List.ne_nil_of_mem hmem
  simp only [evaluate]
  exact List.isEmpty_eq_false.mpr hne

/-- Witness for C5: the sample record with zero open interest against the
min-voi constraint. -/
theorem voi_zero_oi_fails_witness :
    Diag.undefined "voi" ∈ (evaluate c5spec c5rec).2 ∧
      (evaluate c5spec c5rec).1 = false :=
  voi_zero_oi_fails c5spec c5rec (by decide) (by decide)

/-- C6: with a non-empty ticker set, a record passes the ticker constraint
iff membership of its ticker equals `not exclude`; in particular
`tickers = {GME}` with `exclude = true` keeps exactly the AMC record of a
{GME, AMC} candidate pair. -/
theorem ticker_membership_rule :
    (∀ (spec : FilterSpec) (r : CandidateRecord), spec.tickers ≠ [] →
      (tickerDiag spec r = [] ↔
        spec.tickers.contains r.ticker = !spec.exclude)) ∧
    passingSet c6spec [rec0, c6amc] = [c6amc] := by
  constructor
  · intro spec r h
    have he : spec.tickers.isEmpty = false := List.isEmpty_eq_false.mpr h
    unfold tickerDiag
    rw [he]
    simp only [Bool.false_eq_true, if_false]
    split
    · rename_i hb
      simp only [true_iff]
      exact eq_of_beq hb
    · rename_i hb
      constructor
      · intro h0; cases h0
      · intro h0
        exact absurd (beq_iff_eq.mpr h0) (by simp_all)
  · decide

/-- Witness for C6: the general rule instantiated at the exclusion
scenario's specification and the AMC record. -/
theorem ticker_membership_rule_witness :
    c6spec.tickers ≠ [] ∧
      (tickerDiag c6spec c6amc = [] ↔
        c6spec.tickers.contains c6amc.ticker = !c6spec.exclude) :=
  ⟨by decide, ticker_membership_rule.1 c6spec c6amc (by decide)⟩

/-- C7: a specification with zero active constraints passes every record —
the overall result is a vacuously true conjunction. -/
theorem empty_spec_passes_all (spec : FilterSpec) (h : unconstrained spec)
    (r : CandidateRecord) :
    (evaluate spec r).1 = true ∧ (evaluate spec r).2 = [] := by
  obtain ⟨ht, hitm, hotm, hcalls, hputs, hstock, hetf, hactive, hranges⟩ := h
  have hfold :
      allRangeKeys.foldr (fun a acc => rangeDiag spec r a ++ acc) [] = [] := by
    refine foldr_append_eq_nil _ _ (fun k _ => ?_)
    simp [rangeDiag, hranges k, rangeConstrained]
  have hdiags : diagsOf spec r = [] := by
    unfold diagsOf
    rw [hfold]
    simp [tickerDiag, ht, triStateDiag, hitm, hotm, hcalls, hputs, hstock,
      hetf, activeDiag, hactive]
  simp [evaluate, hdiags]

/-- Witness for C7: the fully unconstrained specification passes the
sample record. -/
theorem empty_spec_passes_all_witness :
    (evaluate trivSpec rec0).1 = true ∧ (evaluate trivSpec rec0).2 = [] :=
  empty_spec_passes_all trivSpec
    ⟨rfl, rfl, rfl, rfl, rfl, rfl, rfl, rfl, fun _ => rfl⟩ rec0

/-- C8: `rank` sorts by the resolved field and direction with the
ticker-then-identity tie-break (a total order) and truncates to the
clamped limit: when no more records pass than the limit, all of them are
returned; the output is always sorted; and the iv-descending scenario on
implied volatilities 0.1, 0.5, 0.3 returns them as 0.5, 0.3, 0.1. -/
theorem rank_sort_truncate :
    (∀ (spec : FilterSpec) (l : List CandidateRecord),
      l.length ≤ spec.limit → List.Perm (rank spec l) l) ∧
    (∀ (spec : FilterSpec) (l : List CandidateRecord),
      List.Sorted (recLE spec.orderBy) (rank spec l)) ∧
    rank c8spec [c8a, c8b, c8c] = [c8b, c8c, c8a] := by
  refine ⟨?_, ?_, by decide⟩
  · intro spec l h
    have hlen :
        (List.insertionSort (recLE spec.orderBy) l).length = l.length :=
      (List.perm_insertionSort _ _).length_eq
    have htake :
        (List.insertionSort (recLE spec.orderBy) l).take spec.limit =
          List.insertionSort (recLE spec.orderBy) l := by
      apply List.take_of_length_le
      rw [hlen]
      exact h
    rw [rank, htake]
    exact List.perm_insertionSort _ _
  · intro spec l
    exact List.Pairwise.sublist (List.take_sublist _ _)
      (List.sorted_insertionSort _ l)

/-- Witness for C8: a singleton passing set under the limit is returned
whole. -/
theorem rank_sort_truncate_witness :
    [c8a].length ≤ c8spec.limit ∧ List.Perm (rank c8spec [c8a]) [c8a] :=
  ⟨by decide, rank_sort_truncate.1 c8spec [c8a] (by decide)⟩

/-- C9: the `order-by` value either matches one of the fixed enumerated
sort tokens, or — blank, absent or unmatched — resolves to the default
expiration-descending; resolution never leaves the fixed token set. -/
theorem orderby_fixed_tokens (v : Option String) :
    (∃ sk : SortKey, v = some (sortToken sk) ∧ parseOrderBy v = sk) ∨
      parseOrderBy v = SortKey.e_desc := by
  rcases v with _ | s
  · exact Or.inr rfl
  · by_cases h1 : s = "e_desc"
    · exact Or.inl ⟨SortKey.e_desc, by subst h1; exact ⟨rfl, by decide⟩⟩
    by_cases h2 : s = "e_asc"
    · exact Or.inl ⟨SortKey.e_asc, by subst h2; exact ⟨rfl, by decide⟩⟩
    by_cases h3 : s = "iv_desc"
    · exact Or.inl ⟨SortKey.iv_desc, by subst h3; exact ⟨rfl, by decide⟩⟩
    by_cases h4 : s = "iv_asc"
    · exact Or.inl ⟨SortKey.iv_asc, by subst h4; exact ⟨rfl, by decide⟩⟩
    by_cases h5 : s = "lp_desc"
    · exact Or.inl ⟨SortKey.lp_desc, by subst h5; exact ⟨rfl, by decide⟩⟩
    by_cases h6 : s = "lp_asc"
    · exact Or.inl ⟨SortKey.lp_asc, by subst h6; exact ⟨rfl, by decide⟩⟩
    by_cases h7 : s = "md_desc"
    · exact Or.inl ⟨SortKey.md_desc, by subst h7; exact ⟨rfl, by decide⟩⟩
    by_cases h8 : s = "md_asc"
    · exact Or.inl ⟨SortKey.md_asc, by subst h8; exact ⟨rfl, by decide⟩⟩
    by_cases h9 : s = "oi_desc"
    · exact Or.inl ⟨SortKey.oi_desc, by subst h9; exact ⟨rfl, by decide⟩⟩
    by_cases h10 : s = "oi_asc"
    · exact Or.inl ⟨SortKey.oi_asc, by subst h10; exact ⟨rfl, by decide⟩⟩
    by_cases h11 : s = "v_desc"
    · exact Or.inl ⟨SortKey.v_desc, by subst h11; exact ⟨rfl, by decide⟩⟩
    by_cases h12 : s = "v_asc"
    · exact Or.inl ⟨SortKey.v_asc, by subst h12; exact ⟨rfl, by decide⟩⟩
    by_cases h13 : s = "ρ_desc"
    · exact Or.inl ⟨SortKey.rho_desc, by subst h13; exact ⟨rfl, by decide⟩⟩
    by_cases h14 : s = "ρ_asc"
    · exact Or.inl ⟨SortKey.rho_asc, by subst h14; exact ⟨rfl, by decide⟩⟩
    refine Or.inr ?_
    have hrw : parseOrderBy (some s) = parseOrderByStr s := rfl
    rw [hrw]
    unfold parseOrderByStr
    rw [if_neg h1, if_neg h2, if_neg h3, if_neg h4, if_neg h5, if_neg h6,
      if_neg h7, if_neg h8, if_neg h9, if_neg h10, if_neg h11, if_neg h12,
      if_neg h13, if_neg h14]

/-- C10: when `active` is set to true, a record passes the active
constraint iff its volume, open interest, ask and bid are all strictly
positive; any other setting of `active` restricts nothing. -/
theorem active_restricts_liquidity (spec : FilterSpec) (r : CandidateRecord) :
    (spec.active = some true →
      (activeDiag spec r = [] ↔
        (0 < r.volume ∧ 0 < r.openInterest ∧ 0 < r.ask ∧ 0 < r.bid))) ∧
    (spec.active ≠ some true → activeDiag spec r = []) := by
  constructor
  · intro h
    unfold activeDiag
    rw [if_pos h]
    split
    · rename_i hb
      simp only [true_iff]
      simp only [Bool.and_eq_true, decide_eq_true_eq] at hb
      exact ⟨hb.1.1.1, hb.1.1.2, hb.1.2, hb.2⟩
    · rename_i hb
      constructor
      · intro h0; cases h0
      · intro h0
        exact absurd (by simp [h0.1, h0.2.1, h0.2.2.1, h0.2.2.2]) hb
  · intro h
    unfold activeDiag
    rw [if_neg h]

/-- Witness for C10: the active-requiring specification against the liquid
sample record, and the unconstrained one against the same record. -/
theorem active_restricts_liquidity_witness :
    (activeDiag c10spec rec0 = [] ↔
      (0 < rec0.volume ∧ 0 < rec0.openInterest ∧ 0 < rec0.ask ∧
        0 < rec0.bid)) ∧
    activeDiag trivSpec rec0 = [] :=
  ⟨(active_restricts_liquidity c10spec rec0).1 rfl,
   (active_restricts_liquidity trivSpec rec0).2 (by decide)⟩

end Screen
